import Mathlib

/-!
# Verification of the PyGreSQL 5.0 type-marshaling subsystem

Shallow embedding of the typecast core of PyGreSQL 5.0 (`pg.py`, and its
DB-API sibling `pgdb.py`): the interval literal parser (`cast_interval`
together with the four dialect regexes), the typecast registry
(`Typecasts`), the per-connection type metadata cache (`DbTypes` /
`TypeCache`), and the array literal parser (`cast_array`).

Python's `re.match` anchors at the start of the string only, so every
dialect pattern is a prefix matcher.  Each of the four interval regexes is a
sequence of optional atomic items; because every item is optional the whole
pattern can always complete, hence the regex engine commits to each greedy
item match and never backtracks across items.  The embedding therefore
implements each regex as a deterministic left-to-right parser in which every
item either matches atomically or consumes nothing.  The one intra-item
backtracking case (the SQL-standard day group `([+-]?[0-9]+)(?!:)`, where a
maximal digit run followed by `:` backs off exactly one digit) is
implemented explicitly.
-/

namespace PG

/-! ## Character and digit helpers -/

/-- Maximal (possibly empty) run of ASCII digits, with the rest. -/
def digitRun : List Char → List Char × List Char
  | [] => ([], [])
  | c :: cs =>
    if c.isDigit then
      let p := digitRun cs
      (c :: p.1, p.2)
    else ([], c :: cs)

/-- Numeric value of a digit run, as Python's `int` reads it. -/
def digitsVal (ds : List Char) : Nat :=
  ds.foldl (fun a c => a * 10 + (c.toNat - 48)) 0

/-- `[0-9]+`: nonempty digit run, returning its value. -/
def parseUInt (cs : List Char) : Option (Nat × List Char) :=
  match digitRun cs with
  | ([], _) => none
  | (ds, r) => some (digitsVal ds, r)

/-- `[+-]?[0-9]+` read as a Python `int` (the sign folded into the value). -/
def parseSigned : List Char → Option (Int × List Char)
  | '+' :: cs => (parseUInt cs).map (fun p => ((p.1 : Int), p.2))
  | '-' :: cs => (parseUInt cs).map (fun p => (-(p.1 : Int), p.2))
  | cs => (parseUInt cs).map (fun p => ((p.1 : Int), p.2))

/-- `([+-])?([0-9]+)` with the sign captured as its own group. -/
def parseSignGroup : List Char → Option (Option Char × Nat × List Char)
  | '+' :: cs => (parseUInt cs).map (fun p => (some '+', p.1, p.2))
  | '-' :: cs => (parseUInt cs).map (fun p => (some '-', p.1, p.2))
  | cs => (parseUInt cs).map (fun p => ((none : Option Char), p.1, p.2))

/-- `c?`: consume one occurrence of `c` if present. -/
def optC (c : Char) : List Char → List Char
  | [] => []
  | c' :: cs => if c' = c then cs else c' :: cs

/-- Literal string match, returning the rest. -/
def litL : List Char → List Char → Option (List Char)
  | [], cs => some cs
  | _ :: _, [] => none
  | l :: ls, c :: cs => if c = l then litL ls cs else none

/-! ## The four interval dialect matchers

They mirror `_re_interval_iso_8601`, `_re_interval_postgres_verbose`,
`_re_interval_postgres` and `_re_interval_sql_standard` in `pg.py`
(identical in `pgdb.py`). -/

/-- Signed interval components as `cast_interval` computes them just before
the final folding into a `timedelta`. -/
structure Comps where
  years : Int
  mons : Int
  days : Int
  hours : Int
  mins : Int
  secs : Int
  usecs : Int
deriving DecidableEq, Repr

/-- Groups of `_re_interval_iso_8601`. -/
structure IsoG where
  y : Option Int
  mo : Option Int
  d : Option Int
  h : Option Int
  mi : Option Int
  sSign : Option Char
  s : Option Nat
  frac : Option Nat
deriving DecidableEq, Repr

/-- One ISO item `(?:([+-]?[0-9]+)X)?` for a suffix letter `X`:
matches atomically or consumes nothing. -/
def isoItem (suffix : Char) (cs : List Char) : Option Int × List Char :=
  match parseSigned cs with
  | none => (none, cs)
  | some (n, r) =>
    match r with
    | [] => (none, cs)
    | c :: r2 => if c = suffix then (some n, r2) else (none, cs)

/-- The ISO seconds item `(?:([+-])?([0-9]+)(?:\.([0-9]+))?S)?`. -/
def isoSecItem (cs : List Char) :
    (Option Char × Option Nat × Option Nat) × List Char :=
  match parseSignGroup cs with
  | none => ((none, none, none), cs)
  | some (sg, n, r) =>
    let fr : Option Nat × List Char :=
      match r with
      | '.' :: r2 =>
        match parseUInt r2 with
        | some (f, r3) => (some f, r3)
        | none => (none, r)
      | _ => (none, r)
    match fr.2 with
    | 'S' :: r4 => ((sg, some n, fr.1), r4)
    | _ => ((none, none, none), cs)

/-- The optional items of the ISO pattern after the mandatory `P`. -/
def isoBody (cs : List Char) : IsoG :=
  let py := isoItem 'Y' cs
  let pm := isoItem 'M' py.2
  let pd := isoItem 'D' pm.2
  match pd.2 with
  | 'T' :: ct =>
    let ph := isoItem 'H' ct
    let pmi := isoItem 'M' ph.2
    let ps := isoSecItem pmi.2
    ⟨py.1, pm.1, pd.1, ph.1, pmi.1, ps.1.1, ps.1.2.1, ps.1.2.2⟩
  | _ => ⟨py.1, pm.1, pd.1, none, none, none, none, none⟩

/-- Prefix matcher for `_re_interval_iso_8601`
(`P(..Y)?(..M)?(..D)?(T(..H)?(..M)?(..(.frac)?S)?)?`): everything after the
leading `P` is optional, so the pattern matches exactly the strings that
start with `P`. -/
def isoMatch (s : String) : Option IsoG :=
  match s.data with
  | [] => none
  | c :: cs => if c = 'P' then some (isoBody cs) else none

/-- Groups of `_re_interval_postgres_verbose`. -/
structure VG where
  y : Option Int
  mo : Option Int
  d : Option Int
  h : Option Int
  mi : Option Int
  sSign : Option Char
  s : Option Nat
  frac : Option Nat
  ago : Bool
deriving DecidableEq, Repr

/-- One verbose/postgres unit item `(?:([+-]?[0-9]+) ?words? ?)?`
(`word` is `year`, `mon`, `day`, `hour` or `min`). -/
def unitItem (word : List Char) (cs : List Char) : Option Int × List Char :=
  match parseSigned cs with
  | none => (none, cs)
  | some (n, r) =>
    let r1 := optC ' ' r
    match litL word r1 with
    | none => (none, cs)
    | some r2 => (some n, optC ' ' (optC 's' r2))

/-- The verbose seconds item `(?:([+-])?([0-9]+)(?:\.([0-9]+))? ?secs?)?`. -/
def vSecItem (cs : List Char) :
    (Option Char × Option Nat × Option Nat) × List Char :=
  match parseSignGroup cs with
  | none => ((none, none, none), cs)
  | some (sg, n, r) =>
    let fr : Option Nat × List Char :=
      match r with
      | '.' :: r2 =>
        match parseUInt r2 with
        | some (f, r3) => (some f, r3)
        | none => (none, r)
      | _ => (none, r)
    match litL ['s', 'e', 'c'] (optC ' ' fr.2) with
    | some r4 => ((sg, some n, fr.1), optC 's' r4)
    | none => ((none, none, none), cs)

/-- The optional items of the verbose pattern after the mandatory `@`. -/
def pvBody (cs0 : List Char) : VG :=
  let cs := optC ' ' cs0
  let py := unitItem ['y', 'e', 'a', 'r'] cs
  let pm := unitItem ['m', 'o', 'n'] py.2
  let pd := unitItem ['d', 'a', 'y'] pm.2
  let ph := unitItem ['h', 'o', 'u', 'r'] pd.2
  let pmi := unitItem ['m', 'i', 'n'] ph.2
  let ps := vSecItem pmi.2
  let ago := (litL ['a', 'g', 'o'] (optC ' ' ps.2)).isSome
  ⟨py.1, pm.1, pd.1, ph.1, pmi.1, ps.1.1, ps.1.2.1, ps.1.2.2, ago⟩

/-- Prefix matcher for `_re_interval_postgres_verbose`
(`@ ?(..years?)?(..mons?)?(..days?)?(..hours?)?(..mins?)?(..secs?)? ?(ago)?`):
everything after the leading `@` is optional, so the pattern matches exactly
the strings that start with `@`. -/
def pvMatch (s : String) : Option VG :=
  match s.data with
  | [] => none
  | c :: cs0 => if c = '@' then some (pvBody cs0) else none

/-- Groups of `_re_interval_postgres`. -/
structure PGG where
  y : Option Int
  mo : Option Int
  d : Option Int
  tSign : Option Char
  h : Option Nat
  mi : Option Nat
  s : Option Nat
  frac : Option Nat
deriving DecidableEq, Repr

/-- The time-of-day item `(?:([+-])?([0-9]+):([0-9]+):([0-9]+)(?:\.([0-9]+))?)?`
shared by the postgres and SQL-standard patterns. -/
def timeItem (cs : List Char) :
    (Option Char × Option Nat × Option Nat × Option Nat × Option Nat) × List Char :=
  match parseSignGroup cs with
  | none => ((none, none, none, none, none), cs)
  | some (sg, h, r) =>
    match r with
    | ':' :: r1 =>
      match parseUInt r1 with
      | none => ((none, none, none, none, none), cs)
      | some (mi, r2) =>
        match r2 with
        | ':' :: r3 =>
          match parseUInt r3 with
          | none => ((none, none, none, none, none), cs)
          | some (sec, r4) =>
            let fr : Option Nat × List Char :=
              match r4 with
              | '.' :: r5 =>
                match parseUInt r5 with
                | some (f, r6) => (some f, r6)
                | none => (none, r4)
              | _ => (none, r4)
            ((sg, some h, some mi, some sec, fr.1), fr.2)
        | _ => ((none, none, none, none, none), cs)
    | _ => ((none, none, none, none, none), cs)

/-- Prefix matcher for `_re_interval_postgres`
(`(..years?)?(..mons?)?(..days?)?(hh:mm:ss(.frac)?)?`).  The pattern is
all-optional, so as a regex it matches every string; acceptance is decided
separately by `pgAccept` (Python's `m and any(m.groups())`). -/
def pgMatch (s : String) : PGG :=
  let cs := s.data
  let py := unitItem ['y', 'e', 'a', 'r'] cs
  let pm := unitItem ['m', 'o', 'n'] py.2
  let pd := unitItem ['d', 'a', 'y'] pm.2
  let pt := timeItem pd.2
  ⟨py.1, pm.1, pd.1, pt.1.1, pt.1.2.1, pt.1.2.2.1, pt.1.2.2.2.1, pt.1.2.2.2.2⟩

/-- `any(m.groups())` for the postgres pattern. -/
def pgAccept (g : PGG) : Bool :=
  g.y.isSome || g.mo.isSome || g.d.isSome || g.tSign.isSome ||
  g.h.isSome || g.mi.isSome || g.s.isSome || g.frac.isSome

/-- Groups of `_re_interval_sql_standard`. -/
structure SQG where
  ymSign : Option Char
  y : Option Nat
  mo : Option Nat
  d : Option Int
  tSign : Option Char
  h : Option Nat
  mi : Option Nat
  s : Option Nat
  frac : Option Nat
deriving DecidableEq, Repr

/-- The SQL-standard year-month item `(?:([+-])?([0-9]+)-([0-9]+) ?)?`. -/
def sqYmItem (cs : List Char) :
    (Option Char × Option Nat × Option Nat) × List Char :=
  match parseSignGroup cs with
  | none => ((none, none, none), cs)
  | some (sg, y, r) =>
    match r with
    | '-' :: r1 =>
      match parseUInt r1 with
      | some (mo, r2) => ((sg, some y, some mo), optC ' ' r2)
      | none => ((none, none, none), cs)
    | _ => ((none, none, none), cs)

/-- The SQL-standard day item `(?:([+-]?[0-9]+)(?!:) ?)?`.  A maximal digit
run whose next character is `:` backtracks exactly one digit (then the
lookahead sees a digit and succeeds); a single digit followed by `:` fails. -/
def sqDayCore (cs : List Char) : Option (Nat × List Char) :=
  match digitRun cs with
  | ([], _) => none
  | (ds, r) =>
    match r with
    | ':' :: _ =>
      match ds.dropLast, ds.getLast? with
      | [], _ => none
      | ds', some lastd => some (digitsVal ds', lastd :: r)
      | _ :: _, none => none
    | _ => some (digitsVal ds, r)

/-- The SQL-standard day item including its sign and trailing ` ?`. -/
def sqDayItem : List Char → Option Int × List Char
  | '+' :: cs =>
    match sqDayCore cs with
    | some (n, r) => (some (n : Int), optC ' ' r)
    | none => (none, '+' :: cs)
  | '-' :: cs =>
    match sqDayCore cs with
    | some (n, r) => (some (-(n : Int)), optC ' ' r)
    | none => (none, '-' :: cs)
  | cs =>
    match sqDayCore cs with
    | some (n, r) => (some (n : Int), optC ' ' r)
    | none => (none, cs)

/-- Prefix matcher for `_re_interval_sql_standard`
(`(sign?y-m )?(days )?(hh:mm:ss(.frac)?)?`).  All-optional as a regex;
acceptance is `sqAccept`. -/
def sqMatch (s : String) : SQG :=
  let cs := s.data
  let pym := sqYmItem cs
  let pd := sqDayItem pym.2
  let pt := timeItem pd.2
  ⟨pym.1.1, pym.1.2.1, pym.1.2.2, pd.1,
   pt.1.1, pt.1.2.1, pt.1.2.2.1, pt.1.2.2.2.1, pt.1.2.2.2.2⟩

/-- `any(m.groups())` for the SQL-standard pattern. -/
def sqAccept (g : SQG) : Bool :=
  g.ymSign.isSome || g.y.isSome || g.mo.isSome || g.d.isSome ||
  g.tSign.isSome || g.h.isSome || g.mi.isSome || g.s.isSome || g.frac.isSome

/-! ## Sign resolution per dialect and final folding -/

/-- ISO-8601 branch of `cast_interval`: a leading `-` on the seconds group
also negates the microseconds; every other component is independent. -/
def isoInterp (g : IsoG) : Comps :=
  let s : Int := (g.s.getD 0 : Nat)
  let us : Int := (g.frac.getD 0 : Nat)
  if g.sSign = some '-' then
    ⟨g.y.getD 0, g.mo.getD 0, g.d.getD 0, g.h.getD 0, g.mi.getD 0, -s, -us⟩
  else
    ⟨g.y.getD 0, g.mo.getD 0, g.d.getD 0, g.h.getD 0, g.mi.getD 0, s, us⟩

/-- Postgres-verbose branch of `cast_interval`: a trailing `ago` negates
every component (`m = [-int(d) for d in m] if ago`); an explicit `-` on the
seconds group then negates seconds and microseconds once more. -/
def pvInterp (g : VG) : Comps :=
  let y := g.y.getD 0
  let mo := g.mo.getD 0
  let d := g.d.getD 0
  let h := g.h.getD 0
  let mi := g.mi.getD 0
  let s : Int := (g.s.getD 0 : Nat)
  let us : Int := (g.frac.getD 0 : Nat)
  let c : Comps := if g.ago then ⟨-y, -mo, -d, -h, -mi, -s, -us⟩
                   else ⟨y, mo, d, h, mi, s, us⟩
  if g.sSign = some '-' then { c with secs := -c.secs, usecs := -c.usecs }
  else c

/-- Postgres (short) branch of `cast_interval`: a `-` on the `HH:MM:SS`
group negates hours, minutes, seconds and microseconds together. -/
def pgInterp (g : PGG) : Comps :=
  let h : Int := (g.h.getD 0 : Nat)
  let mi : Int := (g.mi.getD 0 : Nat)
  let s : Int := (g.s.getD 0 : Nat)
  let us : Int := (g.frac.getD 0 : Nat)
  if g.tSign = some '-' then
    ⟨g.y.getD 0, g.mo.getD 0, g.d.getD 0, -h, -mi, -s, -us⟩
  else
    ⟨g.y.getD 0, g.mo.getD 0, g.d.getD 0, h, mi, s, us⟩

/-- SQL-standard branch of `cast_interval`: years and months share the first
sign; the day has its own; hours/minutes/seconds/microseconds share the
`HH:MM:SS` sign. -/
def sqInterp (g : SQG) : Comps :=
  let y : Int := (g.y.getD 0 : Nat)
  let mo : Int := (g.mo.getD 0 : Nat)
  let h : Int := (g.h.getD 0 : Nat)
  let mi : Int := (g.mi.getD 0 : Nat)
  let s : Int := (g.s.getD 0 : Nat)
  let us : Int := (g.frac.getD 0 : Nat)
  let y := if g.ymSign = some '-' then -y else y
  let mo := if g.ymSign = some '-' then -mo else mo
  let h := if g.tSign = some '-' then -h else h
  let mi := if g.tSign = some '-' then -mi else mi
  let s := if g.tSign = some '-' then -s else s
  let us := if g.tSign = some '-' then -us else us
  ⟨y, mo, g.d.getD 0, h, mi, s, us⟩

/-- The signed components produced by `cast_interval` for a literal, trying
the four dialects in the source's fixed order: ISO-8601, then
postgres-verbose, then postgres, then SQL standard.  `none` models the
`ValueError('Cannot parse interval')`. -/
def intervalComponents (s : String) : Option Comps :=
  match isoMatch s with
  | some g => some (isoInterp g)
  | none =>
    match pvMatch s with
    | some g => some (pvInterp g)
    | none =>
      let g := pgMatch s
      if pgAccept g then some (pgInterp g)
      else
        let g2 := sqMatch s
        if sqAccept g2 then some (sqInterp g2)
        else none

/-- `days += 365 * years + 30 * mons; timedelta(days, hours, mins, secs,
usecs)`, expressed as the total signed microsecond count of the returned
`timedelta`. -/
def foldComps (c : Comps) : Int :=
  let d := c.days + 365 * c.years + 30 * c.mons
  c.usecs + 1000000 * (c.secs + 60 * (c.mins + 60 * (c.hours + 24 * d)))

/-- `cast_interval` (pg.py line 816): result as total microseconds, `none`
for the unparsable-interval error. -/
def cast_interval (s : String) : Option Int :=
  (intervalComponents s).map foldComps

/-! ## Association-list helpers (Python `dict` with insertion semantics) -/

section Assoc
variable {κ : Type} {α : Type} [DecidableEq κ]

/-- First value stored under a key. -/
def findA (k : κ) : List (κ × α) → Option α
  | [] => none
  | (k', v) :: rest => if k' = k then some v else findA k rest

/-- Remove every entry under a key (`dict.pop(k, None)`). -/
def eraseA (k : κ) : List (κ × α) → List (κ × α)
  | [] => []
  | (k', v) :: rest => if k' = k then eraseA k rest else (k', v) :: eraseA k rest

/-- Overwrite the entry under a key (`dict[k] = v`). -/
def insertA (k : κ) (v : α) (m : List (κ × α)) : List (κ × α) :=
  (k, v) :: eraseA k m

end Assoc

/-! ## The typecast registry (`Typecasts` in pg.py)

Cast functions are modelled as a syntax of function values, so that the
identity questions the source's tests ask (`get('circle') is f`,
`cast is str`) are expressible.  `base id needsConn` stands for an arbitrary
callable; `needsConn` records whether `'connection' in get_args(f)[1:]`,
the property `Typecasts._needs_connection` discovers by reflection.
`withConn f` is `partial(f, connection=self.connection)`;
`arrayOf b` and `recordOf ...` are the closures built by
`create_array_cast` and `create_record_cast`. -/

inductive CastF where
  | str
  | base (id : Nat) (needsConn : Bool)
  | withConn (f : CastF)
  | arrayOf (b : Option CastF)
  | recordOf (typ : List Char) (fields : List (List Char)) (casts : List (Option CastF))

/-- `Typecasts._needs_connection` on a cast value: only a plain callable can
declare a `connection` parameter (`partial` objects and the generated
closures `cast(v)` never do, nor does `str`). -/
def CastF.needsConn : CastF → Bool
  | .base _ b => b
  | _ => false

/-- `Typecasts._add_connection` (pg.py line 940): bind the connection when
the instance has one and the cast asks for it. -/
def addConn (conn : Bool) (c : CastF) : CastF :=
  if conn && c.needsConn then .withConn c else c

/-- A `Typecasts` instance: the dict contents plus a counter of
`get_attnames` (catalog field) lookups, used to observe whether a lookup
repeats the catalog work. -/
structure TC where
  cache : List (List Char × CastF)
  fieldLookups : Nat

mutual

/-- Dict lookup with `Typecasts.__missing__` (pg.py line 904):
`dfl` is the `defaults` table, `conn` whether `self.connection` is set and
`att` the `get_attnames` oracle (field name / field type pairs).  `fuel`
bounds the recursion (Python recurses on the base name of an array type and
on the field types of a composite).  A `none` result is Python's `None`:
`__missing__` falls through without caching anything. -/
def lookupTC (dfl : List Char → Option CastF) (conn : Bool)
    (att : List Char → List (List Char × List Char)) :
    Nat → TC → List Char → Option CastF × TC
  | 0, st, _ => (none, st)
  | fuel + 1, st, typ =>
    match findA typ st.cache with
    | some c => (some c, st)
    | none =>
      match dfl typ with
      | some c =>
        let c1 := addConn conn c
        (some c1, { st with cache := insertA typ c1 st.cache })
      | none =>
        match typ with
        | '_' :: bas =>
          let p := lookupTC dfl conn att fuel st bas
          let c := CastF.arrayOf p.1
          match p.1 with
          | some _ => (some c, { p.2 with cache := insertA typ c p.2.cache })
          | none => (some c, p.2)
        | _ =>
          let fields := att typ
          let st1 : TC := { st with fieldLookups := st.fieldLookups + 1 }
          match fields with
          | [] => (none, st1)
          | _ :: _ =>
            let q := lookupFields dfl conn att fuel st1 (fields.map (·.2))
            let c := CastF.recordOf typ (fields.map (·.1)) q.1
            (some c, { q.2 with cache := insertA typ c q.2.cache })

/-- The per-field lookups `[self[v.pgtype] for v in attnames.values()]`
performed while building a record cast. -/
def lookupFields (dfl : List Char → Option CastF) (conn : Bool)
    (att : List Char → List (List Char × List Char)) :
    Nat → TC → List (List Char) → List (Option CastF) × TC
  | _, st, [] => ([], st)
  | 0, st, _ :: _ => ([], st)
  | fuel + 1, st, t :: ts =>
    let p := lookupTC dfl conn att fuel st t
    let q := lookupFields dfl conn att fuel p.2 ts
    (p.1 :: q.1, q.2)

end

/-- `Typecasts.set` (pg.py line 950) for a single type name: a callable
stores `_add_connection(cast)` under `t` and pops `'_t'`; `None` pops both
`t` and `'_t'`. -/
def setTC (conn : Bool) (st : TC) (typ : List Char) (c : Option CastF) : TC :=
  match c with
  | none => { st with cache := eraseA ('_' :: typ) (eraseA typ st.cache) }
  | some f =>
    { st with cache := eraseA ('_' :: typ) (insertA typ (addConn conn f) st.cache) }

/-- `Typecasts.reset` (pg.py line 965): with a type name it pops only that
name; with no argument it clears the whole dict. -/
def resetTC (st : TC) (typ : Option (List Char)) : TC :=
  match typ with
  | none => { st with cache := [] }
  | some t => { st with cache := eraseA t st.cache }

/-! ## The per-connection type metadata cache (`DbTypes` in pg.py)

The cache maps both type OIDs and type names to descriptors; a catalog
query (`SELECT ... FROM pg_type WHERE oid=$1::regtype`) is modelled by an
oracle from lookup keys to rows, and the number of issued queries is
counted in the state. -/

/-- A `pg_type` catalog row as fetched by `DbTypes.__missing__`. -/
structure TypRow where
  oid : Nat
  typname : List Char
  regtype : List Char
  typtype : Char
  category : Char
  delim : Char
  relid : Nat
deriving DecidableEq

/-- The `_simpletypes` mapping (pg.py line 220): pg_type names to simple
PyGreSQL type names, defaulting to `text` (`_SimpleTypes.__missing__`). -/
def simplePairs : List (List Char × List Char) :=
  let tys : List (String × List String) :=
    [("bool", ["bool"]), ("bytea", ["bytea"]),
     ("date", ["date", "interval", "time", "timetz", "timestamp",
               "timestamptz", "abstime", "reltime"]),
     ("float", ["float4", "float8"]),
     ("int", ["cid", "int2", "int4", "int8", "oid", "xid"]),
     ("hstore", ["hstore"]), ("json", ["json", "jsonb"]), ("uuid", ["uuid"]),
     ("num", ["numeric"]), ("money", ["money"]),
     ("text", ["bpchar", "char", "name", "text", "varchar"])]
  tys.flatMap (fun p => p.2.flatMap (fun k =>
    [(k.data, p.1.data), ('_' :: k.data, p.1.data ++ ['[', ']'])]))

/-- `_simpletypes[key]` with the `text` default. -/
def simpleOf (k : List Char) : List Char :=
  (findA k simplePairs).getD "text".data

/-- A `DbType` descriptor (pg.py line 1040): a type name string augmented
with the catalog attributes.  `val` is the string value of the `DbType`
(the regular or the simple type name, by the `_regtypes` switch). -/
structure DbTypeD where
  val : List Char
  oid : Nat
  simple : List Char
  pgtype : List Char
  regtype : List Char
  typtype : Char
  category : Char
  delim : Char
  relid : Nat
deriving DecidableEq

/-- Keys of the `DbTypes` dict: Python distinguishes `int` keys (OIDs) from
`str` keys (names). -/
inductive TKey where
  | byOid (o : Nat)
  | byName (n : List Char)
deriving DecidableEq

/-- The `DbTypes` dict contents plus a count of issued catalog queries. -/
structure TMC where
  cache : List (TKey × DbTypeD)
  queries : Nat
deriving DecidableEq

/-- `DbTypes.add` (pg.py line 1086): reuse the descriptor already cached
under the row's OID if any, else build one from the row. -/
def addD (regtypes : Bool) (st : TMC) (row : TypRow) : DbTypeD :=
  match findA (TKey.byOid row.oid) st.cache with
  | some d => d
  | none =>
    let simple := if row.relid ≠ 0 then "record".data else simpleOf row.typname
    { val := if regtypes then row.regtype else simple,
      oid := row.oid, simple := simple, pgtype := row.typname,
      regtype := row.regtype, typtype := row.typtype,
      category := row.category, delim := row.delim, relid := row.relid }

/-- Dict lookup with `DbTypes.__missing__` (pg.py line 1104): on a miss,
one catalog query; on success the descriptor is stored under both its OID
and its pg_type name (`self[typ.oid] = self[typ.pgtype] = typ`); an empty
result is the `KeyError` (`none`). -/
def getTypeD (catalog : TKey → Option TypRow) (regtypes : Bool)
    (st : TMC) (k : TKey) : Option DbTypeD × TMC :=
  match findA k st.cache with
  | some d => (some d, st)
  | none =>
    match catalog k with
    | none => (none, { st with queries := st.queries + 1 })
    | some row =>
      let d := addD regtypes st row
      (some d,
       { cache := insertA (TKey.byName d.pgtype) d
                    (insertA (TKey.byOid d.oid) d st.cache),
         queries := st.queries + 1 })

/-! ## Connection-level typecasting (`DbTypes.typecast`, pg.py line 1149) -/

/-- Result of `DbTypes.typecast`: `null` for a `None` value, `passthrough`
when no cast applies (or the cast is the identity `str`), `applied f v`
for `cast(value)`. -/
inductive TCResult where
  | null
  | passthrough (v : List Char)
  | applied (f : CastF) (v : List Char)

/-- Combined connection state: the type metadata cache and the
connection's `Typecasts` instance. -/
structure ConnState where
  types : TMC
  casts : TC

/-- `DbTypes.typecast(value, typ)` for a type given by name: `None` values
short-circuit before any lookup; otherwise the name is resolved to a
descriptor, the registry is consulted for `typ.pgtype`, and the cast is
applied unless it is missing or is `str`. -/
def typecastOp (catalog : TKey → Option TypRow) (regtypes : Bool)
    (dfl : List Char → Option CastF) (conn : Bool)
    (att : List Char → List (List Char × List Char)) (fuel : Nat)
    (st : ConnState) (value : Option (List Char)) (typ : List Char) :
    TCResult × ConnState :=
  match value with
  | none => (.null, st)
  | some v =>
    let p := getTypeD catalog regtypes st.types (TKey.byName typ)
    match p.1 with
    | none => (.passthrough v, { st with types := p.2 })
    | some d =>
      let q := lookupTC dfl conn att fuel st.casts d.pgtype
      let st1 : ConnState := { types := p.2, casts := q.2 }
      match q.1 with
      | none => (.passthrough v, st1)
      | some .str => (.passthrough v, st1)
      | some f => (.applied f v, st1)

/-! ## The array literal parser (`cast_array`)

Modelled from the spec: `cast_array` itself lives in the repository's C
extension module (`_pg`), which is not shipped here; only its callers
(`pg.py`, `pgdb.py`) and its test suite are.  The definitions below follow
spec sections 4.1 and 4.2: skip an optional `[lo:hi]...=` bound prefix,
parse balanced braces recursively splitting fields on the delimiter with
double-quote and backslash escaping, decode the unquoted case-insensitive
`NULL` token to null, enforce the maximum nesting depth of 16 as a format
error, and reject trailing garbage after the closing brace. -/

/-- A parsed array element: null, scalar text, or a nested array. -/
inductive AVal where
  | null
  | str (s : List Char)
  | arr (xs : List AVal)

/-- Modelled from the spec: reading a double-quoted span, after the opening
quote.  `\"` and `""` are a literal quote, `\\` a literal backslash, any
other backslash-escaped character stands for itself; an unterminated quote
is a format error. -/
def readQuoted : List Char → Except String (List Char × List Char)
  | [] => .error "malformed array literal"
  | '\\' :: [] => .error "malformed array literal"
  | '\\' :: c :: rest => (readQuoted rest).map (fun p => (c :: p.1, p.2))
  | '"' :: '"' :: rest => (readQuoted rest).map (fun p => ('"' :: p.1, p.2))
  | '"' :: rest => .ok ([], rest)
  | c :: rest => (readQuoted rest).map (fun p => (c :: p.1, p.2))

/-- Modelled from the spec: reading an unquoted field up to (but not
consuming) the delimiter or the closing brace; outside quotes a backslash
escapes the following character literally. -/
def readScalar (delim : Char) : List Char → Except String (List Char × List Char)
  | [] => .error "malformed array literal"
  | '\\' :: [] => .error "malformed array literal"
  | '\\' :: c :: rest => (readScalar delim rest).map (fun p => (c :: p.1, p.2))
  | c :: rest =>
    if c = delim ∨ c = '}' then .ok ([], c :: rest)
    else (readScalar delim rest).map (fun p => (c :: p.1, p.2))

/-- The unquoted null token, case-insensitive. -/
def nullTok : List Char := ['n', 'u', 'l', 'l']

mutual

/-- Modelled from the spec: the elements of one nesting level, entered just
after its opening brace; `depth` is the level's 1-based depth and nesting
deeper than 16 levels is a format error.  `fuel` only ensures termination
and is chosen large enough by `cast_array`. -/
def parseElems (delim : Char) : Nat → Nat → List Char →
    Except String (List AVal × List Char)
  | 0, _, _ => .error "out of fuel"
  | fuel + 1, depth, cs =>
    match cs with
    | [] => .error "malformed array literal"
    | c :: rest =>
      if c = '}' then .ok ([], rest)
      else
        match parseOne delim fuel depth (c :: rest) with
        | .error e => .error e
        | .ok (v, r) =>
          match parseMore delim fuel depth r with
          | .error e => .error e
          | .ok (vs, r2) => .ok (v :: vs, r2)

/-- Modelled from the spec: after one element, either the closing brace or
a delimiter followed by further elements. -/
def parseMore (delim : Char) : Nat → Nat → List Char →
    Except String (List AVal × List Char)
  | 0, _, _ => .error "out of fuel"
  | fuel + 1, depth, cs =>
    match cs with
    | [] => .error "malformed array literal"
    | c :: rest =>
      if c = '}' then .ok ([], rest)
      else if c = delim then
        match parseOne delim fuel depth rest with
        | .error e => .error e
        | .ok (v, r) =>
          match parseMore delim fuel depth r with
          | .error e => .error e
          | .ok (vs, r2) => .ok (v :: vs, r2)
      else .error "malformed array literal"

/-- Modelled from the spec: one element — a nested array (depth checked
against the maximum of 16), a quoted string (never null, even `"NULL"`),
or an unquoted scalar with `NULL` decoding to null. -/
def parseOne (delim : Char) : Nat → Nat → List Char →
    Except String (AVal × List Char)
  | 0, _, _ => .error "out of fuel"
  | fuel + 1, depth, cs =>
    match cs with
    | [] => .error "malformed array literal"
    | c :: rest =>
      if c = '{' then
        if 16 ≤ depth then .error "array contents too deeply nested"
        else
          match parseElems delim fuel (depth + 1) rest with
          | .error e => .error e
          | .ok (xs, r) => .ok (.arr xs, r)
      else if c = '"' then
        match readQuoted rest with
        | .error e => .error e
        | .ok (s, r) => .ok (.str s, r)
      else
        match readScalar delim (c :: rest) with
        | .error e => .error e
        | .ok (s, r) =>
          if s = [] then .error "malformed array literal"
          else if s.map Char.toLower = nullTok then .ok (.null, r)
          else .ok (.str s, r)

end

/-- Modelled from the spec: skip the optional `[lo:hi]...=` dimension-bound
declaration groups; a partially formed declaration is a format error. -/
def skipBoundsGroups : Nat → List Char → Except String (List Char)
  | 0, _ => .error "malformed array bounds"
  | fuel + 1, cs =>
    match cs with
    | '=' :: r => .ok r
    | '[' :: r =>
      match parseSigned r with
      | none => .error "malformed array bounds"
      | some (_, r1) =>
        match r1 with
        | ':' :: r2 =>
          match parseSigned r2 with
          | none => .error "malformed array bounds"
          | some (_, r3) =>
            match r3 with
            | ']' :: r4 => skipBoundsGroups fuel r4
            | _ => .error "malformed array bounds"
        | _ => .error "malformed array bounds"
    | _ => .error "malformed array bounds"

/-- Bound prefix handling: only a literal starting with `[` has one. -/
def skipBounds (fuel : Nat) (cs : List Char) : Except String (List Char) :=
  match cs with
  | [] => .ok []
  | c :: rest =>
    if c = '[' then skipBoundsGroups fuel (c :: rest) else .ok (c :: rest)

/-- Modelled from the spec: `cast_array` on a full literal with the default
`,` delimiter — bound prefix, balanced braces with depth limit 16, no
trailing garbage. -/
def cast_array (s : String) : Except String AVal :=
  match skipBounds (2 * s.data.length + 2) s.data with
  | .error e => .error e
  | .ok cs =>
    match cs with
    | [] => .error "malformed array literal"
    | c :: rest =>
      if c = '{' then
        match parseElems ',' (2 * s.data.length + 2) 1 rest with
        | .error e => .error e
        | .ok (xs, r) =>
          match r with
          | [] => .ok (.arr xs)
          | _ :: _ => .error "malformed array literal"
      else .error "malformed array literal"

/-- The nested test literal `'{'*n ++ "a,b,c" ++ '}'*n` from the
repository's `testParserTooDeeplyNested`. -/
def braceLit (n : Nat) : String :=
  ⟨List.replicate n '{' ++ ['a', ',', 'b', ',', 'c'] ++ List.replicate n '}'⟩

/-- The value an `n`-level nesting of `{a,b,c}` decodes to. -/
def nestVal : Nat → AVal
  | 0 => .arr []
  | 1 => .arr [.str ['a'], .str ['b'], .str ['c']]
  | n + 2 => .arr [nestVal (n + 1)]

/-! # Theorems -/

/-- A literal matched by the verbose pattern starts with `@`, so the
ISO-8601 pattern (which requires a leading `P`) cannot match it. -/
theorem isoMatch_of_pvMatch {s : String} {g : VG} (h : pvMatch s = some g) :
    isoMatch s = none := by
  unfold pvMatch at h
  unfold isoMatch
  cases hd : s.data with
  | nil => simp [hd] at h
  | cons c cs =>
    rw [hd] at h
    by_cases hc : c = '@'
    · subst hc; simp
    · simp [hc] at h

/-- **C4.** `cast_interval` tries the four dialects in the fixed source
order ISO-8601, postgres-verbose, postgres, SQL-standard; the first match
(for the last two patterns: a match with at least one nonempty group,
Python's `m and any(m.groups())`) determines the result, and when no
dialect matches the call fails (`ValueError('Cannot parse interval')`,
modelled by `none`). -/
theorem cast_interval_dialect_priority (s : String) :
    (∀ g, isoMatch s = some g → cast_interval s = some (foldComps (isoInterp g))) ∧
    (isoMatch s = none → ∀ g, pvMatch s = some g →
      cast_interval s = some (foldComps (pvInterp g))) ∧
    (isoMatch s = none → pvMatch s = none → pgAccept (pgMatch s) = true →
      cast_interval s = some (foldComps (pgInterp (pgMatch s)))) ∧
    (isoMatch s = none → pvMatch s = none → pgAccept (pgMatch s) = false →
      sqAccept (sqMatch s) = true →
      cast_interval s = some (foldComps (sqInterp (sqMatch s)))) ∧
    (isoMatch s = none → pvMatch s = none → pgAccept (pgMatch s) = false →
      sqAccept (sqMatch s) = false → cast_interval s = none) := by
  refine ⟨fun g hg => ?_, fun h1 g hg => ?_, fun h1 h2 h3 => ?_,
    fun h1 h2 h3 h4 => ?_, fun h1 h2 h3 h4 => ?_⟩
  · simp [cast_interval, intervalComponents, hg]
  · simp [cast_interval, intervalComponents, h1, hg]
  · simp [cast_interval, intervalComponents, h1, h2, h3]
  · simp [cast_interval, intervalComponents, h1, h2, h3, h4]
  · simp [cast_interval, intervalComponents, h1, h2, h3, h4]

/-- Witness for C4: `"xyz"` matches no dialect and fails; `"P1Y"` matches
the ISO-8601 dialect and yields 365 days. -/
theorem cast_interval_dialect_priority_witness :
    cast_interval "xyz" = none ∧ cast_interval "P1Y" = some 31536000000000 :=
  ⟨(cast_interval_dialect_priority "xyz").2.2.2.2 rfl rfl rfl rfl,
   ((cast_interval_dialect_priority "P1Y").1
      ⟨some 1, none, none, none, none, none, none, none⟩ rfl).trans (by decide)⟩

/-- **C5.** Whenever an interval literal parses to signed components, the
returned duration is folded with the fixed conversions 1 year = 365 days
and 1 month = 30 days — `days += 365*years + 30*mons` — with hours,
minutes, seconds and microseconds contributed exactly and no
calendar-aware adjustment. -/
theorem cast_interval_folds_fixed_days (s : String) (c : Comps)
    (h : intervalComponents s = some c) :
    cast_interval s = some (c.usecs + 1000000 * c.secs + 60000000 * c.mins
      + 3600000000 * c.hours
      + 86400000000 * (c.days + 365 * c.years + 30 * c.mons)) := by
  simp only [cast_interval, h, Option.map_some', foldComps, Option.some_inj]
  ring

/-- Witness for C5: `P1Y2M3DT4H5M6.000007S` parses to components
(1, 2, 3, 4, 5, 6, 7) and folds to 428 days 4:05:06.000007. -/
theorem cast_interval_folds_fixed_days_witness :
    cast_interval "P1Y2M3DT4H5M6.000007S" = some 36993906000007 :=
  (cast_interval_folds_fixed_days "P1Y2M3DT4H5M6.000007S"
    ⟨1, 2, 3, 4, 5, 6, 7⟩ rfl).trans (by decide)

/-- Counterexample to C1 as stated: in `"@ 1 year ago"` the years component
carries no `-` prefix of its own, so per the claim it should stay `+1` and
the duration should be `+365` days; the code negates every component on a
trailing `ago`, yielding years = -1 and -365 days. -/
theorem cast_interval_ago_counterexample :
    intervalComponents "@ 1 year ago" = some ⟨-1, 0, 0, 0, 0, 0, 0⟩ ∧
    cast_interval "@ 1 year ago" = some (-31536000000000) := by
  exact ⟨by decide, by decide⟩

/-- **C1 (amended).** In the postgres-verbose dialect a trailing `ago`
negates every component — years, months, days, hours and minutes included,
each after its own `-` prefix has been applied — and an explicit `-` prefix
on the seconds group then negates the seconds and microseconds once more. -/
theorem cast_interval_verbose_ago (s : String) (g : VG)
    (hm : pvMatch s = some g) (ha : g.ago = true) :
    intervalComponents s = some
      { years := -(g.y.getD 0), mons := -(g.mo.getD 0), days := -(g.d.getD 0),
        hours := -(g.h.getD 0), mins := -(g.mi.getD 0),
        secs := if g.sSign = some '-' then ((g.s.getD 0 : Nat) : Int)
                else -((g.s.getD 0 : Nat) : Int),
        usecs := if g.sSign = some '-' then ((g.frac.getD 0 : Nat) : Int)
                 else -((g.frac.getD 0 : Nat) : Int) } := by
  have hi : isoMatch s = none := isoMatch_of_pvMatch hm
  by_cases hs : g.sSign = some '-' <;>
    simp [intervalComponents, hi, hm, pvInterp, ha, hs]

/-- Witness for the amended C1, on the verbose literal the repository's own
test suite uses: `@ 1 year 2 mons -3 days 4 hours 5 mins 6 secs ago` gives
components (-1, -2, 3, -4, -5, -6, 0). -/
theorem cast_interval_verbose_ago_witness :
    intervalComponents "@ 1 year 2 mons -3 days 4 hours 5 mins 6 secs ago" =
      some ⟨-1, -2, 3, -4, -5, -6, 0⟩ :=
  (cast_interval_verbose_ago "@ 1 year 2 mons -3 days 4 hours 5 mins 6 secs ago"
      ⟨some 1, some 2, some (-3), some 4, some 5, none, some 6, none, true⟩
      rfl rfl).trans (by decide)

/-! ## Association-list facts -/

theorem findA_insertA_self {κ α : Type} [DecidableEq κ] (k : κ) (v : α)
    (m : List (κ × α)) : findA k (insertA k v m) = some v := by
  simp [insertA, findA]

theorem findA_eraseA_self {κ α : Type} [DecidableEq κ] (k : κ)
    (m : List (κ × α)) : findA k (eraseA k m) = none := by
  induction m with
  | nil => rfl
  | cons p rest ih =>
    obtain ⟨a, b⟩ := p
    by_cases h : a = k <;> simp [eraseA, findA, h, ih]

theorem findA_eraseA_ne {κ α : Type} [DecidableEq κ] {k k' : κ} (h : k ≠ k')
    (m : List (κ × α)) : findA k (eraseA k' m) = findA k m := by
  induction m with
  | nil => rfl
  | cons p rest ih =>
    obtain ⟨a, b⟩ := p
    by_cases ha : a = k'
    · have h1 : eraseA k' ((a, b) :: rest) = eraseA k' rest := by
        simp [eraseA, ha]
      have h2 : findA k ((a, b) :: rest) = findA k rest := by
        have hak : a ≠ k := by rw [ha]; exact Ne.symm h
        simp [findA, hak]
      rw [h1, h2, ih]
    · have h1 : eraseA k' ((a, b) :: rest) = (a, b) :: eraseA k' rest := by
        simp [eraseA, ha]
      rw [h1]
      by_cases hk : a = k
      · simp [findA, hk]
      · simp [findA, hk, ih]

theorem findA_insertA_ne {κ α : Type} [DecidableEq κ] {k k' : κ} (h : k ≠ k')
    (v : α) (m : List (κ × α)) : findA k (insertA k' v m) = findA k m := by
  simp [insertA, findA, Ne.symm h, findA_eraseA_ne h]

/-! ## Typecast registry theorems -/

/-- Counterexample to C6 as stated: on a connection-bound registry, setting
a cast `f` that declares a `connection` parameter stores
`partial(f, connection=...)`, so the following `get` returns the partial
application, not `f` itself. -/
theorem set_get_connection_counterexample :
    (lookupTC (fun _ => none) true (fun _ => []) 2
        (setTC true ⟨[], 0⟩ "circle".data (some (.base 0 true)))
        "circle".data).1 = some (.withConn (.base 0 true)) ∧
    (CastF.withConn (.base 0 true) ≠ CastF.base 0 true) :=
  ⟨rfl, fun h => CastF.noConfusion h⟩

/-- **C6 (amended).** After `set(t, f)`, `get(t)` returns
`_add_connection(f)` — `f` itself unless the instance is connection-bound
and `f` declares a `connection` parameter, in which case `f` with the
connection pre-bound — and the cached derived array cast under `'_t'` is
removed, so the next lookup of `'_t'` builds its array cast from the newly
set cast. -/
theorem set_then_get (dfl : List Char → Option CastF) (conn : Bool)
    (att : List Char → List (List Char × List Char)) (F : Nat) (st : TC)
    (t : List Char) (f : CastF) :
    lookupTC dfl conn att (F + 1) (setTC conn st t (some f)) t =
      (some (addConn conn f), setTC conn st t (some f)) ∧
    findA ('_' :: t) (setTC conn st t (some f)).cache = none ∧
    (dfl ('_' :: t) = none →
      (lookupTC dfl conn att (F + 2) (setTC conn st t (some f)) ('_' :: t)).1 =
        some (.arrayOf (some (addConn conn f)))) := by
  have hne : ('_' :: t) ≠ t := by
    intro h
    exact absurd (congrArg List.length h) (by simp)
  have h1 : findA t (setTC conn st t (some f)).cache = some (addConn conn f) := by
    simp [setTC, findA_eraseA_ne (Ne.symm hne), findA_insertA_self]
  have h2 : findA ('_' :: t) (setTC conn st t (some f)).cache = none := by
    simp [setTC, findA_eraseA_self]
  refine ⟨?_, h2, ?_⟩
  · simp [lookupTC, h1]
  · intro hd
    simp [lookupTC, h2, hd, h1]

/-- Witness for the amended C6, on a connection-free registry where
`get` does return `f` itself. -/
theorem set_then_get_witness :
    lookupTC (fun _ => none) false (fun _ => []) 1
        (setTC false ⟨[], 0⟩ "circle".data (some (.base 0 false)))
        "circle".data =
      (some (.base 0 false),
       setTC false ⟨[], 0⟩ "circle".data (some (.base 0 false))) ∧
    (lookupTC (fun _ => none) false (fun _ => []) 2
        (setTC false ⟨[], 0⟩ "circle".data (some (.base 0 false)))
        ('_' :: "circle".data)).1 =
      some (.arrayOf (some (.base 0 false))) :=
  ⟨(set_then_get (fun _ => none) false (fun _ => []) 0 ⟨[], 0⟩
      "circle".data (.base 0 false)).1,
   (set_then_get (fun _ => none) false (fun _ => []) 0 ⟨[], 0⟩
      "circle".data (.base 0 false)).2.2 rfl⟩

/-- Counterexample to C2 as stated: `Typecasts.reset('circle')` (pg.py)
pops only the `'circle'` entry; a previously cached derived array cast
under `'_circle'` survives, where the claim requires it to be cleared. -/
theorem reset_keeps_array_cast_counterexample :
    findA ('_' :: "circle".data)
      (resetTC
        (lookupTC (fun _ => none) false (fun _ => []) 2
          (setTC false ⟨[], 0⟩ "circle".data (some (.base 0 false)))
          ('_' :: "circle".data)).2
        (some "circle".data)).cache
      = some (.arrayOf (some (.base 0 false))) ∧
    findA "circle".data
      (resetTC
        (lookupTC (fun _ => none) false (fun _ => []) 2
          (setTC false ⟨[], 0⟩ "circle".data (some (.base 0 false)))
          ('_' :: "circle".data)).2
        (some "circle".data)).cache = none :=
  ⟨rfl, rfl⟩

/-- **C2 (amended).** `reset(t)` drops only the cached entry for `t`
itself, so the next lookup of `t` reverts to the default table; cached
derived casts — the array cast under `'_t'` and record casts with a field
of type `t` — are left in the cache untouched.  `reset()` with no argument
clears the entire cache, which does drop every derived cast. -/
theorem reset_behavior (dfl : List Char → Option CastF) (conn : Bool)
    (att : List Char → List (List Char × List Char)) (F : Nat) (st : TC)
    (t u : List Char) (c : CastF) :
    findA t (resetTC st (some t)).cache = none ∧
    (u ≠ t → findA u (resetTC st (some t)).cache = findA u st.cache) ∧
    (resetTC st none).cache = [] ∧
    (dfl t = some c →
      (lookupTC dfl conn att (F + 1) (resetTC st (some t)) t).1 =
        some (addConn conn c)) := by
  refine ⟨?_, ?_, rfl, ?_⟩
  · simp [resetTC, findA_eraseA_self]
  · intro hu
    simp [resetTC, findA_eraseA_ne hu]
  · intro hd
    have hm : findA t (resetTC st (some t)).cache = none := by
      simp [resetTC, findA_eraseA_self]
    simp [lookupTC, hm, hd]

/-- Witness for the amended C2: a concrete state where resetting `circle`
drops its override, leaves `_circle` untouched, and the next lookup of
`circle` returns the default cast. -/
theorem reset_behavior_witness :
    findA "circle".data
      (resetTC ⟨[("circle".data, .base 0 false),
                 ('_' :: "circle".data, .arrayOf (some (.base 0 false)))], 0⟩
        (some "circle".data)).cache = none ∧
    findA ('_' :: "circle".data)
      (resetTC ⟨[("circle".data, .base 0 false),
                 ('_' :: "circle".data, .arrayOf (some (.base 0 false)))], 0⟩
        (some "circle".data)).cache =
      findA ('_' :: "circle".data)
        (⟨[("circle".data, .base 0 false),
           ('_' :: "circle".data, .arrayOf (some (.base 0 false)))], 0⟩ : TC).cache ∧
    (lookupTC (fun _ => some (.base 7 false)) false (fun _ => []) 1
      (resetTC ⟨[("circle".data, .base 0 false),
                 ('_' :: "circle".data, .arrayOf (some (.base 0 false)))], 0⟩
        (some "circle".data)) "circle".data).1 = some (.base 7 false) := by
  have h := reset_behavior (fun _ => some (.base 7 false)) false (fun _ => []) 0
    ⟨[("circle".data, .base 0 false),
      ('_' :: "circle".data, .arrayOf (some (.base 0 false)))], 0⟩
    "circle".data ('_' :: "circle".data) (.base 7 false)
  exact ⟨h.1, h.2.1 (fun hx => List.cons_ne_self _ _ hx), h.2.2.2 rfl⟩

/-- Counterexample to C3 as stated: looking up a type with no default, no
array marker and no composite fields returns `None` but caches nothing —
the second lookup of the same name performs the field lookup again
(the counter reaches 2) instead of hitting a cached marker. -/
theorem no_cast_not_cached_counterexample :
    lookupTC (fun _ => none) false (fun _ => []) 3
        ((lookupTC (fun _ => none) false (fun _ => []) 3 ⟨[], 0⟩
          "foo".data).2) "foo".data = (none, ⟨[], 2⟩) :=
  rfl

/-- **C3 (amended).** For a type name with no default cast, no `_` array
marker and no composite fields, a registry lookup performs the field
lookup, returns no cast (`None`, the value passes through as text), and
caches nothing — so every further lookup of the same unknown type repeats
the catalog/field lookup. -/
theorem unknown_type_lookup_uncached (dfl : List Char → Option CastF)
    (conn : Bool) (att : List Char → List (List Char × List Char)) (F : Nat)
    (st : TC) (typ : List Char) (hd : dfl typ = none)
    (hu : ∀ b, typ ≠ '_' :: b) (ha : att typ = [])
    (hm : findA typ st.cache = none) :
    lookupTC dfl conn att (F + 1) st typ =
      (none, { st with fieldLookups := st.fieldLookups + 1 }) := by
  cases typ with
  | nil => simp [lookupTC, hm, hd, ha]
  | cons c r =>
    have hc : c ≠ '_' := fun h => hu r (by rw [h])
    simp [lookupTC, hm, hd, ha, hc]

/-- Witness for the amended C3 at a concrete unknown type. -/
theorem unknown_type_lookup_uncached_witness :
    lookupTC (fun _ => none) false (fun _ => []) 4 ⟨[], 5⟩ "foo".data =
      (none, ⟨[], 6⟩) :=
  unknown_type_lookup_uncached (fun _ => none) false (fun _ => []) 3
    ⟨[], 5⟩ "foo".data rfl (fun b h => by cases h) rfl rfl

/-- **C7.** On a registry miss for an array name `'_t'` (with no default
registered for `'_t'` itself), the derived array cast is stored in the
cache only when the base lookup for `t` resolves to an existing cast; when
the base cast is absent the derivation is returned for this call but not
cached. -/
theorem array_cast_cached_iff_base (dfl : List Char → Option CastF)
    (conn : Bool) (att : List Char → List (List Char × List Char)) (F : Nat)
    (st : TC) (t : List Char) (hd : dfl ('_' :: t) = none)
    (hm : findA ('_' :: t) st.cache = none) :
    (∀ b st2, lookupTC dfl conn att F st t = (some b, st2) →
      lookupTC dfl conn att (F + 1) st ('_' :: t) =
        (some (.arrayOf (some b)),
         { st2 with cache := insertA ('_' :: t) (.arrayOf (some b)) st2.cache })) ∧
    (∀ st2, lookupTC dfl conn att F st t = (none, st2) →
      lookupTC dfl conn att (F + 1) st ('_' :: t) =
        (some (.arrayOf none), st2)) := by
  constructor
  · intro b st2 h
    simp [lookupTC, hm, hd, h]
  · intro st2 h
    simp [lookupTC, hm, hd, h]

/-- Witness for C7: with an empty registry the base cast for `circle` is
absent, so looking up `_circle` returns an array cast derived from nothing
and caches nothing; after `circle` is set, the same lookup caches the
derivation. -/
theorem array_cast_cached_iff_base_witness :
    lookupTC (fun _ => none) false (fun _ => []) 2 ⟨[], 0⟩
        ('_' :: "circle".data) = (some (.arrayOf none), ⟨[], 1⟩) :=
  ((array_cast_cached_iff_base (fun _ => none) false (fun _ => []) 1
      ⟨[], 0⟩ "circle".data rfl rfl).2 ⟨[], 1⟩ rfl)

/-! ## Type metadata cache theorems -/

/-- **C8.** After a single miss-resolution through the type metadata cache,
the descriptor built from the catalog row is stored under both its OID key
and its name key — the very same descriptor value, modelling
`self[typ.oid] = self[typ.pgtype] = typ` — and a later lookup by either
key returns it with the state unchanged, so no further catalog query is
issued. -/
theorem type_cache_dual_keys (catalog : TKey → Option TypRow) (rt : Bool)
    (st : TMC) (k : TKey) (row : TypRow) (hm : findA k st.cache = none)
    (hc : catalog k = some row) :
    ∃ d st2, getTypeD catalog rt st k = (some d, st2) ∧
      findA (TKey.byOid d.oid) st2.cache = some d ∧
      findA (TKey.byName d.pgtype) st2.cache = some d ∧
      getTypeD catalog rt st2 (TKey.byOid d.oid) = (some d, st2) ∧
      getTypeD catalog rt st2 (TKey.byName d.pgtype) = (some d, st2) := by
  refine ⟨addD rt st row,
    { cache := insertA (TKey.byName (addD rt st row).pgtype) (addD rt st row)
        (insertA (TKey.byOid (addD rt st row).oid) (addD rt st row) st.cache),
      queries := st.queries + 1 }, ?_, ?_, ?_, ?_, ?_⟩
  · simp [getTypeD, hm, hc]
  · rw [findA_insertA_ne (fun h => TKey.noConfusion h), findA_insertA_self]
  · exact findA_insertA_self _ _ _
  · have h1 : findA (TKey.byOid (addD rt st row).oid)
        (insertA (TKey.byName (addD rt st row).pgtype) (addD rt st row)
          (insertA (TKey.byOid (addD rt st row).oid) (addD rt st row)
            st.cache)) = some (addD rt st row) := by
      rw [findA_insertA_ne (fun h => TKey.noConfusion h), findA_insertA_self]
    simp [getTypeD, h1]
  · have h2 : findA (TKey.byName (addD rt st row).pgtype)
        (insertA (TKey.byName (addD rt st row).pgtype) (addD rt st row)
          (insertA (TKey.byOid (addD rt st row).oid) (addD rt st row)
            st.cache)) = some (addD rt st row) :=
      findA_insertA_self _ _ _
    simp [getTypeD, h2]

/-- Witness for C8 at a concrete catalog with a single `circle`-like row. -/
theorem type_cache_dual_keys_witness :
    ∃ d st2,
      getTypeD (fun _ => some ⟨718, "circle".data, "circle".data, 'b', 'G', ',', 0⟩)
          false ⟨[], 0⟩ (TKey.byName "circle".data) = (some d, st2) ∧
      findA (TKey.byOid d.oid) st2.cache = some d ∧
      findA (TKey.byName d.pgtype) st2.cache = some d ∧
      getTypeD (fun _ => some ⟨718, "circle".data, "circle".data, 'b', 'G', ',', 0⟩)
          false st2 (TKey.byOid d.oid) = (some d, st2) ∧
      getTypeD (fun _ => some ⟨718, "circle".data, "circle".data, 'b', 'G', ',', 0⟩)
          false st2 (TKey.byName d.pgtype) = (some d, st2) :=
  type_cache_dual_keys (fun _ => some ⟨718, "circle".data, "circle".data, 'b', 'G', ',', 0⟩)
    false ⟨[], 0⟩ (TKey.byName "circle".data)
    ⟨718, "circle".data, "circle".data, 'b', 'G', ',', 0⟩ rfl rfl

/-! ## Connection-level typecast dispatch theorems -/

/-- **C10.** `DbTypes.typecast`: a `None` value yields `None` immediately,
with the connection state untouched (no resolution, no cast invoked); when
the resolved cast is absent — unresolvable type name or no registered
cast — or is the identity `str` cast, the raw string is returned
unchanged; a cast function is applied only in the remaining case. -/
theorem typecast_dispatch (catalog : TKey → Option TypRow) (rt : Bool)
    (dfl : List Char → Option CastF) (conn : Bool)
    (att : List Char → List (List Char × List Char)) (fuel : Nat)
    (st : ConnState) (typ : List Char) :
    (typecastOp catalog rt dfl conn att fuel st none typ = (.null, st)) ∧
    (∀ v, (getTypeD catalog rt st.types (TKey.byName typ)).1 = none →
      (typecastOp catalog rt dfl conn att fuel st (some v) typ).1 =
        .passthrough v) ∧
    (∀ v d, (getTypeD catalog rt st.types (TKey.byName typ)).1 = some d →
      ((lookupTC dfl conn att fuel st.casts d.pgtype).1 = none ∨
       (lookupTC dfl conn att fuel st.casts d.pgtype).1 = some .str) →
      (typecastOp catalog rt dfl conn att fuel st (some v) typ).1 =
        .passthrough v) ∧
    (∀ v d f, (getTypeD catalog rt st.types (TKey.byName typ)).1 = some d →
      (lookupTC dfl conn att fuel st.casts d.pgtype).1 = some f →
      f ≠ .str →
      (typecastOp catalog rt dfl conn att fuel st (some v) typ).1 =
        .applied f v) := by
  refine ⟨rfl, ?_, ?_, ?_⟩
  · intro v h
    simp [typecastOp, h]
  · intro v d hd hcast
    rcases hcast with h | h <;> simp [typecastOp, hd, h]
  · intro v d f hd hf hne
    cases f
    case str => exact absurd rfl hne
    all_goals simp [typecastOp, hd, hf]

/-! ## Array depth-limit theorems -/

/-- Entering `j` consecutive opening braces from depth `d` with
`d + j = 17` always reports the depth error: the 17th open level is
rejected wherever the nesting run starts. -/
theorem parseElems_depth_error (j : Nat) :
    ∀ d fuel rest, d + j = 17 → 1 ≤ j → 2 * j ≤ fuel →
      parseElems ',' fuel d (List.replicate j '{' ++ rest) =
        .error "array contents too deeply nested" := by
  induction j with
  | zero => intro d fuel rest _ h1 _; exact absurd h1 (by omega)
  | succ jj ih =>
    intro d fuel rest hd _ hf
    obtain ⟨f2, rfl⟩ : ∃ f2, fuel = f2 + 2 := ⟨fuel - 2, by omega⟩
    have hbr : ¬ ('{' : Char) = '}' := by decide
    rcases Nat.eq_zero_or_pos jj with hz | hpos
    · subst hz
      have hd16 : d = 16 := by omega
      subst hd16
      simp [List.replicate_succ, parseElems, parseOne, hbr]
    · have hdlt : ¬ 16 ≤ d := by omega
      have step := ih (d + 1) f2 rest (by omega) (by omega) (by omega)
      simp [List.replicate_succ, parseElems, parseOne, hbr, hdlt, step]

/-- **C9.** On the nested literal family `'{'*n ++ "a,b,c" ++ '}'*n`,
`cast_array` succeeds for every `1 ≤ n ≤ 16`, returning the `n`-level
nested sequence, and fails with the depth-exceeded format error (not a
crash) for every `n ≥ 17`. -/
theorem cast_array_depth_16 (n : Nat) :
    (1 ≤ n → n ≤ 16 → cast_array (braceLit n) = .ok (nestVal n)) ∧
    (17 ≤ n → cast_array (braceLit n) =
      .error "array contents too deeply nested") := by
  constructor
  · intro h1 h2
    interval_cases n <;> rfl
  · intro h17
    obtain ⟨m, rfl⟩ : ∃ m, n = 17 + m := ⟨n - 17, by omega⟩
    have hlen : (braceLit (17 + m)).data.length = 2 * (17 + m) + 5 := by
      show (List.replicate (17 + m) '{' ++ ['a', ',', 'b', ',', 'c'] ++
          List.replicate (17 + m) '}').length = _
      simp only [List.length_append, List.length_replicate, List.length_cons,
        List.length_nil]
      omega
    have hdata : (braceLit (17 + m)).data =
        '{' :: (List.replicate 16 '{' ++ (List.replicate m '{' ++
          (['a', ',', 'b', ',', 'c'] ++ List.replicate (17 + m) '}'))) := by
      show List.replicate (17 + m) '{' ++ ['a', ',', 'b', ',', 'c'] ++
          List.replicate (17 + m) '}' = _
      rw [show 17 + m = (16 + m) + 1 from by omega]
      simp [List.replicate_succ, List.replicate_add, List.cons_append,
        List.append_assoc]
    have hsq : ¬ ('{' : Char) = '[' := by decide
    have herr := parseElems_depth_error 16 1 (2 * (2 * (17 + m) + 5) + 2)
      (List.replicate m '{' ++ (['a', ',', 'b', ',', 'c'] ++
        List.replicate (17 + m) '}')) (by omega) (by omega) (by omega)
    have hsb : skipBounds (2 * (2 * (17 + m) + 5) + 2)
        ('{' :: (List.replicate 16 '{' ++ (List.replicate m '{' ++
          (['a', ',', 'b', ',', 'c'] ++ List.replicate (17 + m) '}')))) =
        .ok ('{' :: (List.replicate 16 '{' ++ (List.replicate m '{' ++
          (['a', ',', 'b', ',', 'c'] ++ List.replicate (17 + m) '}')))) := by
      simp [skipBounds, hsq]
    unfold cast_array
    rw [hlen, hdata, hsb]
    simp only [herr, eq_self_iff_true, if_true]

/-- Witness for C9 at the boundary: depth 16 succeeds, depth 17 fails. -/
theorem cast_array_depth_16_witness :
    cast_array (braceLit 16) = .ok (nestVal 16) ∧
    cast_array (braceLit 17) = .error "array contents too deeply nested" :=
  ⟨(cast_array_depth_16 16).1 (by decide) (by decide),
   (cast_array_depth_16 17).2 (by decide)⟩

/-- Witness for C10: with an empty catalog the `None` value short-circuits
and a non-`None` value passes through as text. -/
theorem typecast_dispatch_witness :
    typecastOp (fun _ => none) false (fun _ => none) false (fun _ => []) 1
        ⟨⟨[], 0⟩, ⟨[], 0⟩⟩ none "circle".data = (.null, ⟨⟨[], 0⟩, ⟨[], 0⟩⟩) ∧
    (typecastOp (fun _ => none) false (fun _ => none) false (fun _ => []) 1
        ⟨⟨[], 0⟩, ⟨[], 0⟩⟩ (some "v".data) "circle".data).1 =
      .passthrough "v".data :=
  ⟨(typecast_dispatch (fun _ => none) false (fun _ => none) false
      (fun _ => []) 1 ⟨⟨[], 0⟩, ⟨[], 0⟩⟩ "circle".data).1,
   (typecast_dispatch (fun _ => none) false (fun _ => none) false
      (fun _ => []) 1 ⟨⟨[], 0⟩, ⟨[], 0⟩⟩ "circle".data).2.1 "v".data rfl⟩

end PG
